import Mathlib

set_option maxRecDepth 4000

/-!
Shallow embedding of the enumeration-expansion engine and the
declaration/signature parser of the gl-reference-processor repository
(src/enumeration_expander.py and src/signature_parser.py).

Text fragments are modelled as `List Char` (`Frag`).  Python exceptions
are modelled with an explicit error type `PErr`: `assertFail` for a failed
bare `assert`, `keyError` for a `dict` lookup miss, `indexError` for an
out-of-range index / `pop` on an empty list, `valueError` for a failed
unpacking assignment such as `[ident] = tokens`, and `parseExc` for the
classified `ParsingException(node_type, content)`.  In-place mutation of
Python token lists (`del tokens[:k]`, `tokens.pop(0)`) is modelled by
state passing: the mutating operations return the final state of the
caller's list next to their result.

The mutually recursive pair `expand_variant` / `enumeration_variants`
recurses on strictly shorter fragments (each comma-separated entry of a
group is at least two characters shorter than the enclosing fragment);
it is embedded with a fuel parameter, `length + 1` fuel always sufficing,
so that every definition stays executable by kernel reduction.
-/

abbrev Frag := List Char

inductive PErr where
  | assertFail
  | keyError
  | indexError
  | valueError
  | fuelOut
  | parseExc (construct : Frag) (content : Frag)
deriving DecidableEq, Repr

/-- START_TOKENS membership: the keys of SEPARATOR_TOKEN_PAIRS. -/
def isStartTok (c : Char) : Bool := c == '{' || c == '['

/-- END_TOKENS membership: the values of SEPARATOR_TOKEN_PAIRS. -/
def isEndTok (c : Char) : Bool := c == '}' || c == ']'

/-- SEPARATOR_TOKEN_PAIRS lookup; only ever applied to start tokens. -/
def sepPairOf (c : Char) : Char := if c == '{' then '}' else if c == '[' then ']' else c

/-- Python whitespace, as stripped by str.strip() and split by the tokenizer. -/
def isPySpace (c : Char) : Bool :=
  c == ' ' || c == '\t' || c == '\n' || c == '\r' || c == '\x0b' || c == '\x0c'

/-- Python str.strip(): drop leading and trailing whitespace. -/
def pyStrip (s : Frag) : Frag :=
  ((s.dropWhile isPySpace).reverse.dropWhile isPySpace).reverse

/-- Python s[1:-1]: drop the leading and trailing delimiter of a group. -/
def pyInner (e : Frag) : Frag := (e.drop 1).dropLast

/-- Python s[a : b+1]: the inclusive slice used for enumeration ranges. -/
def pySliceNat (v : Frag) (a b : Nat) : Frag := (v.drop a).take (b - a)

def sliceIncl (v : Frag) (a b : Nat) : Frag := pySliceNat v a (b + 1)

/-- Python str.split(sep) for a one-character separator: splits at every
occurrence, keeping empty pieces (the split used on parameter lists). -/
def pySplitGo (sep : Char) : Frag → Frag → List Frag
  | [], cur => [cur.reverse]
  | c :: rest, cur =>
    if c == sep then cur.reverse :: pySplitGo sep rest []
    else pySplitGo sep rest (c :: cur)

def pySplitChar (s : Frag) (sep : Char) : List Frag := pySplitGo sep s []

/-- Loop of split_on_level: track delimiter depth, split only at depth-0
occurrences of the separator (enumeration_expander.py, split_on_level). -/
def splitLevelGo (sep : Char) : Frag → Int → Frag → List Frag
  | [], _, cur => [cur.reverse]
  | c :: rest, depth, cur =>
    let depth2 : Int :=
      if isStartTok c then depth + 1 else if isEndTok c then depth - 1 else depth
    if depth2 == 0 && c == sep then cur.reverse :: splitLevelGo sep rest depth2 []
    else splitLevelGo sep rest depth2 (c :: cur)

def split_on_level (data : Frag) (sep : Char) : List Frag := splitLevelGo sep data 0 []

/-- Loop of variant_enumeration_ranges: depth counter plus the kind that
opened the current top-level group; emits `(start, index)` when depth
returns to 0 on the matching closer.  A closing delimiter met while
start_sep is still None is the Python KeyError
`SEPARATOR_TOKEN_PAIRS[None]`. -/
def variantRangesGo : Frag → Nat → Int → Nat → Option Char → Except PErr (List (Nat × Nat))
  | [], _, _, _, _ => .ok []
  | c :: rest, i, depth, start, startSep =>
    if isStartTok c then
      let start2 := if depth == 0 then i else start
      let sep2 : Option Char := if depth == 0 then some c else startSep
      let depth2 := depth + 1
      match sep2 with
      | none => .error .keyError
      | some s =>
        match variantRangesGo rest (i + 1) depth2 start2 sep2 with
        | .error e => .error e
        | .ok rs => .ok (if sepPairOf s == c && depth2 == 0 then (start2, i) :: rs else rs)
    else if isEndTok c then
      let depth2 := depth - 1
      match startSep with
      | none => .error .keyError
      | some s =>
        match variantRangesGo rest (i + 1) depth2 start startSep with
        | .error e => .error e
        | .ok rs => .ok (if sepPairOf s == c && depth2 == 0 then (start, i) :: rs else rs)
    else variantRangesGo rest (i + 1) depth start startSep

def variant_enumeration_ranges (v : Frag) : Except PErr (List (Nat × Nat)) :=
  variantRangesGo v 0 0 0 none

/-- invert_variant_enumeration_ranges: the static (literal) segments around
the enumeration ranges, as half-open index pairs; always one more segment
than there are ranges. -/
def staticRangesGo (n : Nat) : Nat → List (Nat × Nat) → List (Nat × Nat)
  | prevEnd, [] => [(prevEnd, n)]
  | prevEnd, (a, b) :: rest => (prevEnd, a) :: staticRangesGo n (b + 1) rest

def invert_variant_enumeration_ranges (n : Nat) (rs : List (Nat × Nat)) : List (Nat × Nat) :=
  staticRangesGo n 0 rs

/-- invert_variant_enumerations: the static parts themselves. -/
def staticSlices (v : Frag) (rs : List (Nat × Nat)) : List Frag :=
  (invert_variant_enumeration_ranges v.length rs).map (fun r => pySliceNat v r.1 r.2)

/-- itertools.product over materialized pools: result starts as the single
empty tuple and each pool extends every partial tuple in order, so the
right-most pool varies fastest. -/
def pyProductStep {α : Type} (acc : List (List α)) (pool : List α) : List (List α) :=
  (acc.map (fun x => pool.map (fun y => x ++ [y]))).flatten

def pyProduct {α : Type} (pools : List (List α)) : List (List α) :=
  pools.foldl pyProductStep [[]]

/-- interleave(static_parts, tuple) followed by "".join: zip_longest with a
None fill then takewhile(is not None), so with n+1 static parts and an
n-tuple it is static[0] tuple[0] ... tuple[n-1] static[n]. -/
def interleaveJoin : List Frag → List Frag → Frag
  | [], _ => []
  | s :: _, [] => s
  | s :: ss, t :: ts => s ++ (t ++ interleaveJoin ss ts)

/-- Body of enumeration_variants, abstracted over the recursive call to
expand_variant.  The two asserts come first: the leading character must be
a start token and the count of the opening delimiter must equal the count
of its closing pair; indexing an empty string raises IndexError. -/
def enumVarsWith (expandF : Frag → Except PErr (List Frag)) (e : Frag) :
    Except PErr (List Frag) :=
  match e with
  | [] => .error .indexError
  | c :: _ =>
    if isStartTok c then
      if List.count c e == List.count (sepPairOf c) e then
        match (split_on_level (pyInner e) ',').mapM (fun p => expandF (pyStrip p)) with
        | .error err => .error err
        | .ok parts => .ok (if c == '[' then [] :: parts.flatten else parts.flatten)
      else .error .assertFail
    else .error .assertFail

/-- Fuelled expand_variant: scan the top-level enumeration ranges, expand
each group through enumeration_variants (which recurses into
expand_variant on each comma-separated entry), take the cartesian product
of the per-group variant lists and re-interleave with the static parts. -/
def expandV (fuel : Nat) : Frag → Except PErr (List Frag) :=
  Nat.rec (motive := fun _ => Frag → Except PErr (List Frag))
    (fun _ => .error .fuelOut)
    (fun _ ih v =>
      match variant_enumeration_ranges v with
      | .error e => .error e
      | .ok rs =>
        match rs.mapM (fun r => enumVarsWith ih (sliceIncl v r.1 r.2)) with
        | .error e => .error e
        | .ok lists => .ok ((pyProduct lists).map (interleaveJoin (staticSlices v rs))))
    fuel

def expand_variant (v : Frag) : Except PErr (List Frag) := expandV (v.length + 1) v

def enumeration_variants (e : Frag) : Except PErr (List Frag) :=
  enumVarsWith expand_variant e

/-- The characters from c1 to c2 inclusive (the chars helper). -/
def charsFromTo (c1 c2 : Char) : List Char :=
  (List.range' c1.toNat (c2.toNat + 1 - c1.toNat)).map Char.ofNat

/-- Variant.variant_letter_set: chars('A','Z'), the characters of the
string "_, " and ALL_TOKENS (START_TOKENS then END_TOKENS). -/
def variantLetterSet : List Char :=
  charsFromTo 'A' 'Z' ++ ['_', ',', ' '] ++ ['{', '[', '}', ']']

/-- Variant.check: every character lies in the variant letter set. -/
def Variant.check (v : Frag) : Bool := v.all (fun c => variantLetterSet.elem c)

/-- Variant.expand: wrap the fragment in a synthetic brace pair, expand it
as one enumeration, and run each resulting variant through expand_variant
again, flattening. -/
def Variant.expand (enumeration : Frag) : Except PErr (List Frag) :=
  match enumeration_variants ('{' :: (enumeration ++ ['}'])) with
  | .error e => .error e
  | .ok vs =>
    match vs.mapM expand_variant with
    | .error e => .error e
    | .ok parts => .ok parts.flatten

/-- Variant.parse: a Variant node is its ordered list of expanded variants. -/
def Variant.parse (v : Frag) : Except PErr (List Frag) := Variant.expand v

/-- Variant.process: structural check first ("no match" is `.ok none`, not
an error), then parse, whose exceptions propagate. -/
def Variant.process (v : Frag) : Except PErr (Option (List Frag)) :=
  if Variant.check v then
    match Variant.parse v with
    | .ok vs => .ok (some vs)
    | .error e => .error e
  else .ok none

/-- Variant.__str__: ", ".join(self.variants). -/
def joinFragsWith (sep : Frag) : List Frag → Frag
  | [] => []
  | [x] => x
  | x :: y :: ys => x ++ (sep ++ joinFragsWith sep (y :: ys))

def Variant.toStr (vs : List Frag) : Frag := joinFragsWith ((", ").data) vs

/-- MultiIdent._enumeration_variants: space-separated alternatives when the
inner text contains a space, individual characters otherwise. -/
def MultiIdent.enumerationVariants (inner : Frag) : List Frag :=
  if inner.contains ' ' then pySplitChar inner ' ' else inner.map (fun ch => [ch])

/-- MultiIdent.idents: cartesian product of the per-group alternative
tokens, re-interleaved with the static parts with no separator. -/
def MultiIdent.idents (name : Frag) : Except PErr (List Frag) :=
  match variant_enumeration_ranges name with
  | .error e => .error e
  | .ok rs =>
    let lists := rs.map (fun r => MultiIdent.enumerationVariants (pyInner (sliceIncl name r.1 r.2)))
    .ok ((pyProduct lists).map (interleaveJoin (staticSlices name rs)))

inductive Qualifier where
  | const
  | volatile

/-- Qualifier.check: membership in the literal set {"const", "volatile"}. -/
def Qualifier.check (t : Frag) : Bool := t == ("const").data || t == ("volatile").data

/-- Qualifier.process: check then parse; parse cannot fail once check holds. -/
def Qualifier.process (t : Frag) : Option Qualifier :=
  if t == ("const").data then some .const
  else if t == ("volatile").data then some .volatile
  else none

def Qualifier.toStr : Qualifier → Frag
  | .const => ("const").data
  | .volatile => ("volatile").data

structure Pointer where
  qualifiers : List Qualifier

structure Declarator where
  pointers : List Pointer
  ident : Frag

structure Declaration where
  type_qualifier : Option Qualifier
  type_specifier : Frag
  declarator : Declarator

/-- The qualifier tokens greedily consumed after a "*" token:
takewhile(is not None, map(Qualifier.process, tokens[1:])). -/
def takeQualifiers (rest : List Frag) : List Qualifier :=
  (rest.takeWhile (fun t => (Qualifier.process t).isSome)).filterMap Qualifier.process

/-- The remainder of the token list after `del tokens[:len(qualifiers)+1]`. -/
def dropQualifiers (rest : List Frag) : List Frag :=
  rest.dropWhile (fun t => (Qualifier.process t).isSome)

/-- Loop of Declarator.parse_pointers: while tokens[0] == "*", consume the
star and its qualifiers.  Re-reading tokens[0] on an emptied list is the
Python IndexError.  The second component is the final state of the
caller's (mutated) token list. -/
def parsePointersGo : Nat → List Frag → (Except PErr (List Pointer)) × List Frag
  | 0, toks => (.error .fuelOut, toks)
  | _ + 1, [] => (.error .indexError, [])
  | fuel + 1, t :: rest =>
    if t == ("*").data then
      let quals := takeQualifiers rest
      match parsePointersGo fuel (dropQualifiers rest) with
      | (.ok ps, fin) => (.ok (Pointer.mk quals :: ps), fin)
      | (.error e, fin) => (.error e, fin)
    else (.ok [], t :: rest)

/-- Declarator.parse_pointers: an empty list yields no pointers without
touching tokens[0]; otherwise run the while loop. -/
def Declarator.parse_pointers (tokens : List Frag) : (Except PErr (List Pointer)) × List Frag :=
  if tokens.isEmpty then (.ok [], tokens) else parsePointersGo (tokens.length + 1) tokens

/-- Declarator.check: an empty token list is "no match". -/
def Declarator.check (tokens : List Frag) : Option (List Frag) :=
  if tokens.isEmpty then none else some tokens

/-- Declarator.assemble: parse the pointer levels, then `[ident] = tokens`;
any remaining length other than exactly one raises the unclassified
unpacking ValueError. -/
def Declarator.assemble (tokens : List Frag) : (Except PErr Declarator) × List Frag :=
  match Declarator.parse_pointers tokens with
  | (.ok ps, fin) =>
    match fin with
    | [identTok] => (.ok (Declarator.mk ps identTok), fin)
    | _ => (.error .valueError, fin)
  | (.error e, fin) => (.error e, fin)

def Declarator.process (tokens : List Frag) : (Except PErr (Option Declarator)) × List Frag :=
  match Declarator.check tokens with
  | none => (.ok none, tokens)
  | some ts =>
    match Declarator.assemble ts with
    | (.ok d, fin) => (.ok (some d), fin)
    | (.error e, fin) => (.error e, fin)

/-- Declaration.tokenize: re.split on r"(\s+|\*)" keeping the "*" tokens
and dropping whitespace-only and empty pieces, i.e. maximal runs of
non-space non-star characters plus individual "*" tokens. -/
def tokenizeGo : Frag → Frag → List Frag
  | [], cur => if cur.isEmpty then [] else [cur.reverse]
  | c :: rest, cur =>
    if isPySpace c then
      if cur.isEmpty then tokenizeGo rest [] else cur.reverse :: tokenizeGo rest []
    else if c == '*' then
      if cur.isEmpty then ['*'] :: tokenizeGo rest []
      else cur.reverse :: ['*'] :: tokenizeGo rest []
    else tokenizeGo rest (c :: cur)

def Declaration.tokenize (code : Frag) : List Frag := tokenizeGo code []

/-- Declaration.check: more than one token, else "no match". -/
def Declaration.check (tokens : List Frag) : Option (List Frag) :=
  if tokens.length > 1 then some tokens else none

/-- Python " ".join. -/
def joinWith (sep : Char) : List Frag → Frag
  | [] => []
  | [x] => x
  | x :: y :: ys => x ++ (sep :: joinWith sep (y :: ys))

/-- Declaration.assemble: optionally consume a leading qualifier, pop the
type token, hand the rest to Declarator.process; a Declarator "no match"
(empty rest) raises the classified declarator ParsingException whose
content is " ".join of the (already consumed) list. -/
def Declaration.assemble (tokens : List Frag) : (Except PErr Declaration) × List Frag :=
  let q := Qualifier.process (tokens.headD [])
  let toks1 := if q.isSome then tokens.drop 1 else tokens
  match toks1 with
  | [] => (.error .indexError, [])
  | typeTok :: rest =>
    match Declarator.process rest with
    | (.ok (some d), fin) => (.ok (Declaration.mk q typeTok d), fin)
    | (.ok none, fin) => (.error (.parseExc (("declarator").data) (joinWith ' ' fin)), fin)
    | (.error e, fin) => (.error e, fin)

def Declaration.process (tokens : List Frag) : (Except PErr (Option Declaration)) × List Frag :=
  match Declaration.check tokens with
  | none => (.ok none, tokens)
  | some ts =>
    match Declaration.assemble ts with
    | (.ok d, fin) => (.ok (some d), fin)
    | (.error e, fin) => (.error e, fin)

structure Signature where
  return_type_qualifier : Option Qualifier
  return_type : Frag
  return_declarator : Declarator
  params : List (Sum Declaration (List Frag))

/-- Python str.find for a character: first index, or -1 when absent. -/
def pyFindChar (s : Frag) (c : Char) : Int :=
  match s.findIdx? (fun x => x == c) with
  | some i => (i : Int)
  | none => -1

/-- Normalize a Python slice index: negative indices count from the end
and clamp at 0; positive ones clamp at the length. -/
def pyIdx (n : Nat) (i : Int) : Nat :=
  if i < 0 then ((n : Int) + i).toNat else min i.toNat n

/-- Python s[a:b] with Python index semantics. -/
def pySlice (v : Frag) (a b : Int) : Frag :=
  let s := pyIdx v.length a
  let e := pyIdx v.length b
  (v.drop s).take (e - s)

/-- Signature.check: the fragment must end in ");"; the part before the
first "(" is the return prefix, the part between it and the final ");"
is the raw parameter list. -/
def Signature.check (v : Frag) : Option (Frag × Frag) :=
  if v.drop (v.length - 2) == (");").data then
    let opening := pyFindChar v '('
    some (pySlice v 0 opening, pySlice v (opening + 1) (-2))
  else none

/-- The parameter fragments: Signature.assemble iterates params.split(","),
a plain split on every comma. -/
def sigParamFragments (params : Frag) : List Frag := pySplitChar params ','

/-- One parameter: try Declaration on the stripped, tokenized text; on "no
match" try Variant on the raw text; if both reject, raise the classified
declaration ParsingException on the raw parameter text. -/
def Signature.parseParam (p : Frag) : Except PErr (Sum Declaration (List Frag)) :=
  match Declaration.process (Declaration.tokenize (pyStrip p)) with
  | (.ok (some d), _) => .ok (.inl d)
  | (.ok none, _) =>
    match Variant.process p with
    | .ok (some vs) => .ok (.inr vs)
    | .ok none => .error (.parseExc (("declaration").data) p)
    | .error e => .error e
  | (.error e, _) => .error e

/-- Signature.assemble: split the return prefix on top-level spaces,
optionally consume a return qualifier, pop the return type, parse the
return declarator, then process each comma-split parameter fragment. -/
def Signature.assemble (pfx params : Frag) : Except PErr Signature :=
  let ptoks := split_on_level pfx ' '
  let q := Qualifier.process (ptoks.headD [])
  let ptoks1 := if q.isSome then ptoks.drop 1 else ptoks
  match ptoks1 with
  | [] => .error .indexError
  | retType :: rest =>
    match Declarator.process rest with
    | (.ok (some d), _) =>
      match (sigParamFragments params).mapM Signature.parseParam with
      | .ok ps => .ok (Signature.mk q retType d ps)
      | .error e => .error e
    | (.ok none, fin) => .error (.parseExc (("declarator").data) (joinWith ' ' fin))
    | (.error e, _) => .error e

def Signature.process (v : Frag) : Except PErr (Option Signature) :=
  match Signature.check v with
  | none => .ok none
  | some (pfx, params) =>
    match Signature.assemble pfx params with
    | .ok s => .ok (some s)
    | .error e => .error e

/-- Pointer.__str__: "*" followed by the space-joined qualifiers. -/
def Pointer.toStr (p : Pointer) : Frag := '*' :: joinWith ' ' (p.qualifiers.map Qualifier.toStr)

/-- Declarator.__str__: space-joined pointers (with a trailing space when
any pointer is present) followed by the identifier. -/
def Declarator.toStr (d : Declarator) : Frag :=
  (if d.pointers.isEmpty then [] else joinWith ' ' (d.pointers.map Pointer.toStr) ++ [' ']) ++ d.ident

/-- Declaration.__str__: qualifier (if any), type and declarator joined by
single spaces. -/
def Declaration.toStr (d : Declaration) : Frag :=
  joinWith ' '
    ((match d.type_qualifier with | some q => [Qualifier.toStr q] | none => []) ++
      [d.type_specifier, Declarator.toStr d.declarator])

def Signature.paramToStr : Sum Declaration (List Frag) → Frag
  | .inl d => Declaration.toStr d
  | .inr vs => Variant.toStr vs

/-- Signature.__str__: the return qualifier (if any), return type, return
declarator and the parenthesized comma-joined parameter list, all joined
by single spaces — note the space this inserts before the "(". -/
def Signature.toStr (s : Signature) : Frag :=
  joinWith ' '
    ((match s.return_type_qualifier with | some q => [Qualifier.toStr q] | none => []) ++
      [s.return_type, Declarator.toStr s.return_declarator,
        '(' :: (joinFragsWith ((", ").data) (s.params.map Signature.paramToStr) ++ ((");").data))])

/-- Re-serialize a parsed signature: the textual form of the node built
from the input, when one is built. -/
def sigRoundTrip (v : Frag) : Except PErr (Option Frag) :=
  match Signature.process v with
  | .ok (some s) => .ok (some (Signature.toStr s))
  | .ok none => .ok none
  | .error e => .error e

/-- Classified-failure discriminator for C5: is the outcome the classified
construct-mismatch failure naming the declarator construct. -/
def isDeclaratorMismatch : Except PErr (Option Declaration) → Bool
  | .error (.parseExc c _) => c == ("declarator").data
  | _ => false

/-- Does every comma of the fragment sit at delimiter depth 0 (tracking
depth exactly as split_on_level does). -/
def commasTopGo : Frag → Int → Bool
  | [], _ => true
  | c :: rest, depth =>
    let depth2 : Int :=
      if isStartTok c then depth + 1 else if isEndTok c then depth - 1 else depth
    if c == ',' && depth2 != 0 then false else commasTopGo rest depth2

def commasTopLevel (s : Frag) : Bool := commasTopGo s 0

/-- The character set as the claim states it: the uppercase letters A-Z,
underscore, comma, space, and the four delimiter tokens. -/
def claimLetterList : List Char :=
  ['A', 'B', 'C', 'D', 'E', 'F', 'G', 'H', 'I', 'J', 'K', 'L', 'M',
   'N', 'O', 'P', 'Q', 'R', 'S', 'T', 'U', 'V', 'W', 'X', 'Y', 'Z',
   '_', ',', ' ', '{', '}', '[', ']']

/- ==================================================================== -/
/- Theorems                                                             -/
/- ==================================================================== -/

/-- Unfolding equation for the fuelled expansion at a successor fuel. -/
theorem expandV_succ (n : Nat) (v : Frag) :
    expandV (n + 1) v =
      match variant_enumeration_ranges v with
      | .error e => .error e
      | .ok rs =>
        match rs.mapM (fun r => enumVarsWith (expandV n) (sliceIncl v r.1 r.2)) with
        | .error e => .error e
        | .ok lists => .ok ((pyProduct lists).map (interleaveJoin (staticSlices v rs))) := rfl

/-- The fuelled expansion on a successful scan and successful per-group
expansion is the interleaved cartesian product. -/
theorem expandV_ok (n : Nat) (v : Frag) (rs : List (Nat × Nat)) (lists : List (List Frag))
    (h1 : variant_enumeration_ranges v = .ok rs)
    (h2 : rs.mapM (fun r => enumVarsWith (expandV n) (sliceIncl v r.1 r.2)) = .ok lists) :
    expandV (n + 1) v = .ok ((pyProduct lists).map (interleaveJoin (staticSlices v rs))) := by
  rw [expandV_succ, h1]
  simp only [h2]

/-- C1: the Variant Combinator's expansion is the cartesian product of the
top-level groups' variant lists in source order, the last-occurring group
varying fastest (appending a final pool makes it the innermost loop of
the product), interleaved with the static parts; in particular
expanding "A{B,C}D{E,F}" gives exactly ABDE, ABDF, ACDE, ACDF. -/
theorem c1_expand_cartesian_product_order :
    (∀ (ls : List (List Frag)) (l : List Frag),
      pyProduct (ls ++ [l]) =
        ((pyProduct ls).map (fun t => l.map (fun y => t ++ [y]))).flatten)
    ∧ (∀ (v : Frag) (rs : List (Nat × Nat)) (lists : List (List Frag)),
        variant_enumeration_ranges v = .ok rs →
        rs.mapM (fun r => enumVarsWith (expandV v.length) (sliceIncl v r.1 r.2)) = .ok lists →
        expand_variant v = .ok ((pyProduct lists).map (interleaveJoin (staticSlices v rs))))
    ∧ expand_variant (("A\x7bB,C\x7dD\x7bE,F\x7d").data) =
        .ok [("ABDE").data, ("ABDF").data, ("ACDE").data, ("ACDF").data] := by
  refine ⟨fun ls l => ?_, fun v rs lists h1 h2 => expandV_ok v.length v rs lists h1 h2, rfl⟩
  simp [pyProduct, List.foldl_append, pyProductStep]

theorem c1_witness :
    expand_variant (("A\x7bB,C\x7dD\x7bE,F\x7d").data) =
      .ok ((pyProduct [[("B").data, ("C").data], [("E").data, ("F").data]]).map
        (interleaveJoin (staticSlices (("A\x7bB,C\x7dD\x7bE,F\x7d").data) [(1, 5), (7, 11)]))) :=
  c1_expand_cartesian_product_order.2.1 (("A\x7bB,C\x7dD\x7bE,F\x7d").data)
    [(1, 5), (7, 11)] [[("B").data, ("C").data], [("E").data, ("F").data]] rfl rfl

/-- C8 counterexample: the fragment "}A" contains zero top-level
enumeration groups (it has no opening delimiter at all), yet its
expansion does not return the one-element list ["}A"]: the delimiter scan
crashes with the unclassified KeyError of SEPARATOR_TOKEN_PAIRS[None]. -/
theorem c8_counterexample :
    expand_variant (("\x7dA").data) = .error .keyError
    ∧ expand_variant (("\x7dA").data) ≠ .ok [("\x7dA").data] :=
  ⟨rfl, fun h => Except.noConfusion h⟩

/-- C8 amended: for every fragment on which the delimiter scan succeeds
and reports zero top-level enumeration groups, the expansion is exactly
the one-element list holding the fragment unchanged. -/
theorem c8_amended_zero_groups_identity :
    ∀ v : Frag, variant_enumeration_ranges v = .ok [] → expand_variant v = .ok [v] := by
  intro v h
  have hs : staticSlices v [] = [v] := by
    simp [staticSlices, invert_variant_enumeration_ranges, staticRangesGo, pySliceNat]
  unfold expand_variant
  rw [expandV_ok v.length v [] [] h rfl, hs]
  rfl

theorem c8_witness :
    variant_enumeration_ranges (("ABC").data) = .ok []
    ∧ expand_variant (("ABC").data) = .ok [("ABC").data] :=
  ⟨rfl, c8_amended_zero_groups_identity (("ABC").data) rfl⟩

/-- Unfolding equation for enumVarsWith on a non-empty fragment. -/
theorem enumVarsWith_cons (F : Frag → Except PErr (List Frag)) (c : Char) (rest : Frag) :
    enumVarsWith F (c :: rest) =
      (if isStartTok c then
        if List.count c (c :: rest) == List.count (sepPairOf c) (c :: rest) then
          match (split_on_level (pyInner (c :: rest)) ',').mapM (fun p => F (pyStrip p)) with
          | .error err => .error err
          | .ok parts => .ok (if c == '[' then [] :: parts.flatten else parts.flatten)
        else .error .assertFail
      else .error .assertFail) := rfl

/-- A successful expansion of a group opened by "[" starts with the empty
string prepended by the Option wrapper. -/
theorem enumVarsWith_optional {F : Frag → Except PErr (List Frag)} {rest : Frag} {l : List Frag}
    (he : enumVarsWith F ('[' :: rest) = .ok l) : l.head? = some [] := by
  rw [enumVarsWith_cons, show isStartTok '[' = true from rfl] at he
  simp only [if_true] at he
  cases hcnt : (List.count '[' ('[' :: rest) == List.count (sepPairOf '[') ('[' :: rest)) with
  | false => rw [hcnt] at he; simp at he
  | true =>
    rw [hcnt] at he
    simp only [if_true] at he
    cases hm : (split_on_level (pyInner ('[' :: rest)) ',').mapM (fun p => F (pyStrip p)) with
    | error err => rw [hm] at he; simp at he
    | ok parts =>
      rw [hm] at he
      simp only [show (('[' : Char) == '[') = true from rfl, if_true] at he
      injection he with h2
      rw [← h2]
      rfl

/-- C7: every OPTIONAL-kind group ('[' / ']') expands to a variant list
whose first element is the empty string, followed by the expansions of
the comma-separated entries; in particular "[X, Y]" expands to
["", "X", "Y"]. -/
theorem c7_optional_group_empty_first :
    (∀ (e : Frag) (l : List Frag), e.head? = some '[' →
      enumeration_variants e = .ok l → l.head? = some [])
    ∧ enumeration_variants (("[X, Y]").data) = .ok [[], ("X").data, ("Y").data] := by
  constructor
  · intro e l hh he
    cases e with
    | nil => simp at hh
    | cons c rest =>
      have hc : c = '[' := by simpa using hh
      subst hc
      exact enumVarsWith_optional he
  · rfl

theorem c7_witness :
    ([[], ("X").data, ("Y").data] : List Frag).head? = some ([] : Frag) :=
  c7_optional_group_empty_first.1 (("[X, Y]").data) [[], ("X").data, ("Y").data] rfl rfl

/-- Wrapping a fragment whose brace counts disagree in the synthetic brace
pair of Variant.expand fails the delimiter-count assert immediately. -/
theorem enumeration_variants_count_ne (f : Frag)
    (h : List.count '{' f ≠ List.count '}' f) :
    enumeration_variants ('{' :: (f ++ ['}'])) = .error .assertFail := by
  have h1 : List.count '{' ('{' :: (f ++ ['}'])) = List.count '{' f + 1 := by
    simp [List.count_cons, List.count_append]
  have h2 : List.count (sepPairOf '{') ('{' :: (f ++ ['}'])) = List.count '}' f + 1 := by
    simp [sepPairOf, List.count_cons, List.count_append]
  unfold enumeration_variants
  rw [enumVarsWith_cons, show isStartTok '{' = true from rfl]
  simp only [if_true]
  rw [h1, h2]
  have hne : ((List.count '{' f + 1) == (List.count '}' f + 1)) = false := by
    rw [beq_eq_false_iff_ne]
    omega
  rw [hne]
  simp

/-- C4 counterexample: processing the fragment "{A, B" (an unmatched
opening brace) as a plain enumeration raises the unclassified
AssertionError of the delimiter-count assert, not the classified
construct-mismatch ParsingException; and the fragment "[A, B" (an
unmatched opening bracket) raises nothing at all — it is accepted and
returned as its own single variant. -/
theorem c4_counterexample :
    Variant.process (("\x7bA, B").data) = .error .assertFail
    ∧ Variant.process (("[A, B").data) = .ok (some [("[A, B").data]) := ⟨rfl, rfl⟩

/-- C4 amended: a fragment accepted by the plain-enumeration character
check whose count of '{' differs from its count of '}' makes processing
fail with the unclassified assertion failure (no offending-text payload);
an unmatched '[' is not detected at all ("[A, B" is accepted verbatim). -/
theorem c4_amended_unmatched_open_assert :
    (∀ f : Frag, Variant.check f = true →
      List.count '{' f ≠ List.count '}' f →
      Variant.process f = .error .assertFail)
    ∧ Variant.process (("[A, B").data) = .ok (some [("[A, B").data]) := by
  constructor
  · intro f hchk hcnt
    unfold Variant.process
    rw [hchk]
    simp only [if_true]
    unfold Variant.parse Variant.expand
    rw [enumeration_variants_count_ne f hcnt]
  · rfl

theorem c4_witness :
    Variant.process (("\x7bA, B").data) = .error .assertFail :=
  c4_amended_unmatched_open_assert.1 (("\x7bA, B").data) (by decide) (by decide)

/-- C10: the plain-enumeration structural check accepts a fragment exactly
when every character is an uppercase letter, underscore, comma, space or
one of the four delimiter tokens (vacuously accepting the empty
fragment); hence any fragment containing a digit or a lowercase letter is
structurally rejected as "no match" — .ok none, never an error. -/
theorem c10_variant_check_charset :
    (∀ v : Frag, Variant.check v = true ↔ ∀ c, c ∈ v → c ∈ claimLetterList)
    ∧ (∀ v : Frag, v.any (fun c => c.isDigit || c.isLower) = true →
        Variant.process v = .ok none) := by
  have hperm : List.Perm variantLetterSet claimLetterList := by decide
  have hmem : ∀ c : Char, c ∈ variantLetterSet ↔ c ∈ claimLetterList := fun c => hperm.mem_iff
  have hchk : ∀ v : Frag, Variant.check v = true ↔ ∀ c, c ∈ v → c ∈ claimLetterList := by
    intro v
    unfold Variant.check
    rw [List.all_eq_true]
    constructor
    · intro h c hc
      have h2 := h c hc
      rw [List.elem_iff] at h2
      exact (hmem c).1 h2
    · intro h c hc
      rw [List.elem_iff]
      exact (hmem c).2 (h c hc)
  refine ⟨hchk, ?_⟩
  intro v hv
  rw [List.any_eq_true] at hv
  obtain ⟨c, hc, hdl⟩ := hv
  have hn : ∀ x ∈ claimLetterList, (x.isDigit || x.isLower) = false := by decide
  have hfalse : ¬ Variant.check v = true := by
    intro ht
    have hmem2 := (hchk v).1 ht c hc
    rw [hn c hmem2] at hdl
    exact Bool.noConfusion hdl
  unfold Variant.process
  rw [if_neg hfalse]

theorem c10_witness :
    Variant.process (("a1").data) = .ok none :=
  c10_variant_check_charset.2 (("a1").data) (by decide)

/-- C6: the Multi-Identifier Expander splits a group's inner text on
spaces when it contains one and iterates its characters otherwise, and
concatenates the cartesian product with the static parts with no
separator; "Uniform{1234}{i f d ui}" yields exactly the sixteen
identifiers Uniform1i .. Uniform4ui (the computed order, a permutation
of the set as listed in the specification). -/
theorem c6_multi_ident_sixteen_idents :
    MultiIdent.idents (("Uniform\x7b1234\x7d\x7bi f d ui\x7d").data) = .ok
      [("Uniform1i").data, ("Uniform1f").data, ("Uniform1d").data, ("Uniform1ui").data,
       ("Uniform2i").data, ("Uniform2f").data, ("Uniform2d").data, ("Uniform2ui").data,
       ("Uniform3i").data, ("Uniform3f").data, ("Uniform3d").data, ("Uniform3ui").data,
       ("Uniform4i").data, ("Uniform4f").data, ("Uniform4d").data, ("Uniform4ui").data]
    ∧ List.Perm
      [("Uniform1i").data, ("Uniform1f").data, ("Uniform1d").data, ("Uniform1ui").data,
       ("Uniform2i").data, ("Uniform2f").data, ("Uniform2d").data, ("Uniform2ui").data,
       ("Uniform3i").data, ("Uniform3f").data, ("Uniform3d").data, ("Uniform3ui").data,
       ("Uniform4i").data, ("Uniform4f").data, ("Uniform4d").data, ("Uniform4ui").data]
      [("Uniform1i").data, ("Uniform2i").data, ("Uniform3i").data, ("Uniform4i").data,
       ("Uniform1f").data, ("Uniform2f").data, ("Uniform3f").data, ("Uniform4f").data,
       ("Uniform1d").data, ("Uniform2d").data, ("Uniform3d").data, ("Uniform4d").data,
       ("Uniform1ui").data, ("Uniform2ui").data, ("Uniform3ui").data, ("Uniform4ui").data] :=
  ⟨rfl, by decide⟩

/-- C2 counterexample: for the prototype "void F({A,B} x);" the Signature
parser's raw parameter list is "{A,B} x", and the code's split (a plain
split on every comma) yields ["{A", "B} x"] — the enumeration group does
not stay within a single parameter fragment, and the result differs from
the top-level split the claim describes. -/
theorem c2_counterexample :
    Signature.check (("void F(\x7bA,B\x7d x);").data) =
      some ((("void F").data), (("\x7bA,B\x7d x").data))
    ∧ sigParamFragments (("\x7bA,B\x7d x").data) = [("\x7bA").data, ("B\x7d x").data]
    ∧ sigParamFragments (("\x7bA,B\x7d x").data) ≠ split_on_level (("\x7bA,B\x7d x").data) ',' :=
  ⟨rfl, rfl, by decide⟩

/-- Plain comma split and depth-aware split agree exactly when every comma
of the input sits at delimiter depth 0. -/
theorem splitGo_agree : ∀ (s : Frag) (depth : Int) (cur : Frag),
    commasTopGo s depth = true →
    pySplitGo ',' s cur = splitLevelGo ',' s depth cur := by
  intro s
  induction s with
  | nil => intros; rfl
  | cons c rest ih =>
    intro depth cur h
    simp only [commasTopGo] at h
    simp only [pySplitGo, splitLevelGo]
    by_cases hcomma : c = ','
    · subst hcomma
      simp only [show isStartTok ',' = false from rfl, show isEndTok ',' = false from rfl,
        Bool.false_eq_true, if_false] at h ⊢
      by_cases hdz : depth = 0
      · subst hdz
        simp only [show ((',' : Char) == ',') = true from rfl, Bool.true_and,
          show ((0 : Int) != 0) = false from rfl, Bool.false_eq_true, if_false] at h
        simp only [show ((0 : Int) == 0) = true from rfl,
          show ((',' : Char) == ',') = true from rfl, Bool.and_self, if_true]
        rw [ih 0 [] h]
      · exfalso
        have hd : (depth != 0) = true := by
          simpa using hdz
        rw [show ((',' : Char) == ',') = true from rfl, hd] at h
        simp at h
    · have hcb : (c == ',') = false := by
        simpa using hcomma
      rw [hcb] at h ⊢
      simp only [Bool.false_and, Bool.and_false, Bool.false_eq_true, if_false] at h ⊢
      exact ih _ (c :: cur) h

/-- C2 amended: the Signature parser splits the raw parameter list on
every comma, nested or not; this agrees with the top-level
(depth-aware) split exactly for parameter lists in which every comma
sits at delimiter depth 0. -/
theorem c2_amended_split_on_every_comma :
    ∀ p : Frag, commasTopLevel p = true → sigParamFragments p = split_on_level p ',' := by
  intro p h
  unfold sigParamFragments pySplitChar split_on_level
  exact splitGo_agree p 0 [] h

theorem c2_witness :
    commasTopLevel (("int x, int y").data) = true
    ∧ sigParamFragments (("int x, int y").data) =
        split_on_level (("int x, int y").data) ',' :=
  ⟨by decide, c2_amended_split_on_every_comma (("int x, int y").data) (by decide)⟩

/-- C3 counterexample: the Signature built from the well-formed prototype
"void F(int x);" re-serializes to "void F (int x);" (a space is inserted
before the parameter list), and re-parsing that text does not yield an
equal node — it raises the unclassified unpacking ValueError. -/
theorem c3_counterexample :
    sigRoundTrip (("void F(int x);").data) = .ok (some (("void F (int x);").data))
    ∧ Signature.process (("void F (int x);").data) = .error .valueError := ⟨rfl, rfl⟩

/-- C3 amended: re-serializing and re-parsing yields a structurally equal
node for variant-style kinds (demonstrated for a parsed Variant), but
not for Signature: its string form inserts a space before the "(" of
the parameter list, and re-parsing the re-serialized text of a Signature
built from a well-formed prototype raises an unclassified error instead
of rebuilding the node. -/
theorem c3_amended_roundtrip :
    (Variant.process (("A, B").data) = .ok (some [("A").data, ("B").data])
      ∧ Variant.process (Variant.toStr [("A").data, ("B").data]) =
          .ok (some [("A").data, ("B").data]))
    ∧ sigRoundTrip (("int G(uint a);").data) = .ok (some (("int G (uint a);").data))
    ∧ Signature.process (("int G (uint a);").data) = .error .valueError :=
  ⟨⟨rfl, rfl⟩, rfl, rfl⟩

/-- C5 counterexample: parsing the declaration "int foo bar" (more than
one non-pointer, non-qualifier token left for the declarator) raises the
unclassified unpacking ValueError, not a classified parse failure naming
the declarator construct. -/
theorem c5_counterexample :
    (Declaration.process (Declaration.tokenize (("int foo bar").data))).1 = .error .valueError
    ∧ isDeclaratorMismatch
        (Declaration.process (Declaration.tokenize (("int foo bar").data))).1 = false :=
  ⟨rfl, rfl⟩

/-- C5 amended: an empty token list after qualifier and type consumption
raises the classified construct-mismatch failure naming the declarator
(with empty offending text); more than one remaining token instead
raises the unclassified unpacking ValueError, as "int foo bar" shows. -/
theorem c5_amended_declarator_failures :
    (∀ q t : Frag, Qualifier.check q = true →
      Declaration.process [q, t] =
        (.error (.parseExc (("declarator").data) []), []))
    ∧ (Declaration.process (Declaration.tokenize (("int foo bar").data))).1 =
        .error .valueError := by
  constructor
  · intro q t hq
    unfold Qualifier.check at hq
    rw [Bool.or_eq_true] at hq
    rcases hq with h | h
    · have hc : q = ("const").data := by simpa using h
      subst hc
      rfl
    · have hc : q = ("volatile").data := by simpa using h
      subst hc
      rfl
  · rfl

theorem c5_witness :
    Qualifier.check (("const").data) = true
    ∧ Declaration.process [("const").data, ("int").data] =
        (.error (.parseExc (("declarator").data) []), []) :=
  ⟨by decide, c5_amended_declarator_failures.1 (("const").data) (("int").data) (by decide)⟩

/-- C9 counterexample: Declaration.process mutates the caller's token
list: processing the tokens of "int foo" leaves the list holding only
["foo"], not the original two tokens. -/
theorem c9_counterexample :
    Declaration.tokenize (("int foo").data) = [("int").data, ("foo").data]
    ∧ (Declaration.process [("int").data, ("foo").data]).2 = [("foo").data]
    ∧ ([("foo").data] : List Frag) ≠ [("int").data, ("foo").data] :=
  ⟨rfl, rfl, by decide⟩

/-- A successful Declarator.process leaves the caller's list holding
exactly the declarator's identifier token. -/
theorem declarator_process_some {ts : List Frag} {d : Declarator} {fin : List Frag}
    (h : Declarator.process ts = (.ok (some d), fin)) : fin = [d.ident] := by
  unfold Declarator.process at h
  split at h
  · simp at h
  · rename_i ts2 hck
    split at h
    · rename_i dd fin2 hasm
      simp only [Prod.mk.injEq, Except.ok.injEq, Option.some.injEq] at h
      obtain ⟨hd, hf⟩ := h
      unfold Declarator.assemble at hasm
      split at hasm
      · rename_i ps fin3 hpp
        split at hasm
        · rename_i identTok
          simp only [Prod.mk.injEq, Except.ok.injEq] at hasm
          obtain ⟨hdd, hff⟩ := hasm
          rw [← hf, ← hff, ← hd, ← hdd]
        · simp at hasm
      · rename_i e fin3 hpp
        simp at hasm
    · rename_i e fin2 hasm
      simp at h

/-- C9 amended: Declaration.process is not pure in the caller's token
list — it consumes the qualifier, type and pointer tokens in place.  On
success the caller's list is left holding exactly the declarator's
identifier token, and therefore never equals the original list (which
the structural check requires to hold at least two tokens). -/
theorem c9_amended_token_list_mutation :
    ∀ (ts : List Frag) (d : Declaration) (fin : List Frag),
      Declaration.process ts = (.ok (some d), fin) →
      fin = [d.declarator.ident] ∧ fin ≠ ts := by
  intro ts d fin h
  unfold Declaration.process at h
  split at h
  · simp at h
  · rename_i ts2 hck
    have hck2 : ts2 = ts ∧ ts.length > 1 := by
      unfold Declaration.check at hck
      by_cases hl : ts.length > 1
      · rw [if_pos hl] at hck
        injection hck with hh
        exact ⟨hh.symm, hl⟩
      · rw [if_neg hl] at hck
        cases hck
    obtain ⟨hts, hlen⟩ := hck2
    subst hts
    split at h
    · rename_i dd fin2 hasm
      simp only [Prod.mk.injEq, Except.ok.injEq, Option.some.injEq] at h
      obtain ⟨hd, hf⟩ := h
      have hfin2 : fin2 = [dd.declarator.ident] := by
        simp only [Declaration.assemble] at hasm
        split at hasm
        · simp at hasm
        · rename_i typeTok rest
          split at hasm
          · rename_i d3 fin3 hdp
            simp only [Prod.mk.injEq, Except.ok.injEq] at hasm
            obtain ⟨hdd3, hff3⟩ := hasm
            have hident := declarator_process_some hdp
            rw [← hff3, hident, ← hdd3]
          · rename_i fin3 hdp
            simp at hasm
          · rename_i e fin3 hdp
            simp at hasm
      constructor
      · rw [← hf, hfin2, hd]
      · rw [← hf, hfin2]
        intro heq
        have hlen2 := congrArg List.length heq
        simp at hlen2
        omega
    · rename_i e fin2 hasm
      simp at h

theorem c9_witness :
    ([("foo").data] : List Frag) =
      [(Declaration.mk none (("int").data) (Declarator.mk [] (("foo").data))).declarator.ident]
    ∧ ([("foo").data] : List Frag) ≠ [("int").data, ("foo").data] :=
  c9_amended_token_list_mutation [("int").data, ("foo").data]
    (Declaration.mk none (("int").data) (Declarator.mk [] (("foo").data))) [("foo").data] rfl
